import Mathlib

/-!
Verification of the paginated paper collector (`paper_collector.py`,
`SemanticScholarRAGCollector.search_papers_for_rag`).

The collector is embedded shallowly.  Network nondeterminism is an oracle:
each page fetch is driven by a function `Nat → AttemptOutcome` giving the
outcome of each HTTP attempt of the per-page retry loop, and a whole run is
driven by a list of such oracles, one per page-fetch iteration of the outer
`while` loop.  When the outer loop would keep going but the supplied list of
page oracles is exhausted, the model returns `none` (the real loop would have
kept issuing requests); every `some` result corresponds to a genuine
termination path of the Python function.
-/

/-- A paper record as the collector sees it: a JSON object.  Only the fields
the collection loop inspects are modelled; `none` stands for an absent (or
JSON-null) field.  `paperId`/`title` carry the record's identity. -/
structure Paper where
  paperId : Option String
  title : String
  year : Option Int
  publicationDate : Option String
  citationCount : Option Int
deriving DecidableEq, Repr

/-- `p.get('citationCount', 0)` — absent field defaults to `0`. -/
def citationOf (p : Paper) : Int :=
  p.citationCount.getD 0

/-- The citation filter of line 91-94:
`p.get('citationCount', 0) >= min_citations`. -/
def citationFilter (min_citations : Int) (p : Paper) : Bool :=
  decide (min_citations ≤ citationOf p)

/-- The sort key of the finalizer:
`(x.get('year') or 0, x.get('publicationDate') or '')`.
Python's `or` maps falsy values (`None`, `0`, `''`) to the default, which
coincides with `Option.getD` here because `0` and `''` are the defaults. -/
def sortKey (p : Paper) : Int × String :=
  (p.year.getD 0, p.publicationDate.getD "")

/-- Python string `≤`: lexicographic comparison of the code-point
sequences. -/
def strLe : List Char → List Char → Bool
  | [], _ => true
  | _ :: _, [] => false
  | a :: as, b :: bs =>
    if a.toNat < b.toNat then true
    else if b.toNat < a.toNat then false
    else strLe as bs

/-- Lexicographic `≤` on the Python sort-key tuple `(int, str)`. -/
def keyLe (a b : Int × String) : Prop :=
  a.1 < b.1 ∨ (a.1 = b.1 ∧ strLe a.2.data b.2.data = true)

instance : DecidableRel keyLe := fun a b =>
  inferInstanceAs (Decidable (a.1 < b.1 ∨ (a.1 = b.1 ∧ strLe a.2.data b.2.data = true)))

/-- `a` may precede `b` in the output of
`sorted(_, key=sortKey, reverse=True)`: its key is lexicographically ≥. -/
def paperGe (a b : Paper) : Prop :=
  keyLe (sortKey b) (sortKey a)

instance : DecidableRel paperGe := fun a b =>
  inferInstanceAs (Decidable (keyLe (sortKey b) (sortKey a)))

/-- Finalization (lines 150-159 and the two early returns):
`sorted(all_papers, key=..., reverse=True)[:total_limit]`.
Python's `sorted` is a stable sort; with `reverse=True` it is the stable
descending sort by the key, which is exactly insertion sort by `paperGe`. -/
def finalize (total_limit : Nat) (all_papers : List Paper) : List Paper :=
  (List.insertionSort paperGe all_papers).take total_limit

/-- Outcome of one HTTP attempt inside the per-page retry loop.
`rateLimited` is a 429 response; `timeout` is `requests.exceptions.Timeout`;
`reqError` is any other `requests.exceptions.RequestException` (including the
`raise_for_status` error for a non-2xx status and a JSON parse error);
`ok papers` is a 2xx response whose body parsed to the given `data` list. -/
inductive AttemptOutcome where
  | rateLimited
  | timeout
  | reqError
  | ok (papers : List Paper)
deriving Repr

/-- Net result of the per-page retry loop.  `failure incr` means the retry
budget was exhausted; `incr` is the total number of times the loop body
incremented `consecutive_failures` for this page (the final `reqError`
handler increments once at line 132, and the `if not success` block at
line 135-136 increments once more). -/
inductive RetryResult where
  | success (papers : List Paper)
  | failure (incr : Nat)
deriving DecidableEq, Repr

/-- Trace of the per-page retry loop: its result, the `time.sleep` durations
(in seconds) it performed for backoff, and how many attempts it consumed. -/
structure RetryOut where
  result : RetryResult
  waits : List Nat
  attemptsUsed : Nat
deriving DecidableEq, Repr

/-- `retry_delay = 5` (line 63). -/
def retry_delay : Nat := 5

/-- The body of `for attempt in range(max_retries)` (lines 66-132), driven by
the oracle.  `attempt` is the current 0-based attempt index; `remaining` is
the number of loop iterations still available after this one (so the final
attempt of the budget has `remaining = 0`, matching
`attempt < max_retries - 1` in the code).  Exhausting the range without
success yields `failure 1` (the post-loop `consecutive_failures += 1`);
a `reqError` on the final attempt yields `failure 2` (lines 132 and 136). -/
def retryGo (oracle : Nat → AttemptOutcome) : Nat → Nat → RetryOut
  | _, 0 => ⟨.failure 1, [], 0⟩
  | attempt, remaining + 1 =>
    match oracle attempt with
    | .ok papers => ⟨.success papers, [], 1⟩
    | .rateLimited =>
      let o := retryGo oracle (attempt + 1) remaining
      ⟨o.result, retry_delay * 2 ^ attempt :: o.waits, o.attemptsUsed + 1⟩
    | .timeout =>
      let o := retryGo oracle (attempt + 1) remaining
      ⟨o.result, retry_delay * (attempt + 1) :: o.waits, o.attemptsUsed + 1⟩
    | .reqError =>
      if remaining = 0 then ⟨.failure 2, [], 1⟩
      else
        let o := retryGo oracle (attempt + 1) remaining
        ⟨o.result, retry_delay * (attempt + 1) :: o.waits, o.attemptsUsed + 1⟩

/-- The whole retry loop: `max_retries = 3` attempts starting at attempt 0. -/
def runRetry (oracle : Nat → AttemptOutcome) : RetryOut :=
  retryGo oracle 0 3

/-- Modelled from the spec's words (§4.1), for comparison with the code:
the backoff wait the spec prescribes for the given outcome on the given
0-based attempt, `none` when no wait is prescribed (success, or a generic
transport error on the final of the 3 attempts, which is surfaced instead
of retried). -/
def specBackoff (o : AttemptOutcome) (attempt : Nat) : Option Nat :=
  match o with
  | .ok _ => none
  | .rateLimited => some (retry_delay * 2 ^ attempt)
  | .timeout => some (retry_delay * (attempt + 1))
  | .reqError => if attempt < 2 then some (retry_delay * (attempt + 1)) else none

/-- The arguments of one collection run (lines 27-33). -/
structure Config where
  query : String
  min_citations : Int
  total_limit : Nat
  year_from : Option Int

/-- `batch_size = 100` (line 36). -/
def batch_size : Nat := 100

/-- The `year` request parameter: `if year_from: params['year'] = f'{year_from}-'`
(lines 56-57).  Python truthiness: `None` and `0` both skip the parameter. -/
def yearParam : Option Int → Option String
  | none => none
  | some y => if y = 0 then none else some (toString y ++ "-")

/-- The request parameters of one page fetch (lines 49-57); the constant
`fields` list is omitted.  `limit` is always `batch_size`. -/
structure Request where
  query : String
  offset : Nat
  limit : Nat
  year : Option String
deriving DecidableEq, Repr

def mkRequest (cfg : Config) (offset : Nat) : Request :=
  ⟨cfg.query, offset, batch_size, yearParam cfg.year_from⟩

/-- What a terminated run produced: the returned list, the request parameter
sets issued in order, and the accumulator `all_papers` at the moment of
finalization. -/
structure RunOut where
  result : List Paper
  requests : List Request
  finalAcc : List Paper
deriving DecidableEq, Repr

/-- The outer `while len(all_papers) < total_limit` loop (lines 48-147),
one recursion step per page-fetch iteration.  State: remaining page oracles,
`all_papers`, `offset`, `consecutive_failures`.  Success branch: empty page
returns immediately (lines 82-88); otherwise filter, extend, advance offset,
reset the failure counter, and return if the raw page was short
(lines 91-115).  Failure branch: add the retry loop's increments to
`consecutive_failures` and stop once it reaches `max_consecutive_failures = 3`
(lines 135-147).  `none` means the oracle list ran out while the loop would
have continued. -/
def collectAux (cfg : Config) :
    List (Nat → AttemptOutcome) → List Paper → Nat → Nat → Option RunOut
  | fetches, all_papers, offset, consecutive_failures =>
    if cfg.total_limit ≤ all_papers.length then
      some ⟨finalize cfg.total_limit all_papers, [], all_papers⟩
    else
      match fetches with
      | [] => none
      | f :: rest =>
        let req := mkRequest cfg offset
        match (runRetry f).result with
        | .success papers =>
          if papers = [] then
            some ⟨finalize cfg.total_limit all_papers, [req], all_papers⟩
          else
            let acc := all_papers ++ papers.filter (citationFilter cfg.min_citations)
            if papers.length < batch_size then
              some ⟨finalize cfg.total_limit acc, [req], acc⟩
            else
              (collectAux cfg rest acc (offset + batch_size) 0).map
                (fun o => ⟨o.result, req :: o.requests, o.finalAcc⟩)
        | .failure incr =>
          let consec := consecutive_failures + incr
          if 3 ≤ consec then
            some ⟨finalize cfg.total_limit all_papers, [req], all_papers⟩
          else
            (collectAux cfg rest all_papers offset consec).map
              (fun o => ⟨o.result, req :: o.requests, o.finalAcc⟩)

/-- A full run of `search_papers_for_rag` from the initial state
(`all_papers = []`, `offset = 0`, `consecutive_failures = 0`), with its
request log and final accumulator. -/
def searchTrace (cfg : Config) (fetches : List (Nat → AttemptOutcome)) :
    Option RunOut :=
  collectAux cfg fetches [] 0 0

/-- The value `search_papers_for_rag` returns. -/
def search_papers_for_rag (cfg : Config)
    (fetches : List (Nat → AttemptOutcome)) : Option (List Paper) :=
  (searchTrace cfg fetches).map RunOut.result

/-! ### Order facts about the sort key -/

theorem strLe_total : ∀ as bs, strLe as bs = true ∨ strLe bs as = true
  | [], _ => .inl rfl
  | _ :: _, [] => .inr rfl
  | a :: as, b :: bs => by
    by_cases h1 : a.toNat < b.toNat
    · left; simp [strLe, h1]
    · by_cases h2 : b.toNat < a.toNat
      · right; simp [strLe, h2]
      · rcases strLe_total as bs with h | h
        · left; simp [strLe, h1, h2, h]
        · right; simp [strLe, h1, h2, h]

theorem strLe_cons_iff {a b : Char} {as bs : List Char} :
    strLe (a :: as) (b :: bs) = true ↔
      a.toNat < b.toNat ∨ (a.toNat = b.toNat ∧ strLe as bs = true) := by
  by_cases h1 : a.toNat < b.toNat
  · simp [strLe, h1]
  · by_cases h2 : b.toNat < a.toNat
    · constructor
      · intro h; simp [strLe, h1, h2] at h
      · rintro (h | ⟨h, _⟩) <;> omega
    · have he : a.toNat = b.toNat := by omega
      simp [strLe, h1, h2, he]

theorem strLe_trans : ∀ {as bs cs}, strLe as bs = true → strLe bs cs = true →
    strLe as cs = true
  | [], _, _, _, _ => rfl
  | _ :: _, [], _, hab, _ => by simp [strLe] at hab
  | _ :: _, _ :: _, [], _, hbc => by simp [strLe] at hbc
  | a :: as, b :: bs, c :: cs, hab, hbc => by
    rcases strLe_cons_iff.mp hab with h | ⟨h, hab'⟩ <;>
      rcases strLe_cons_iff.mp hbc with h' | ⟨h', hbc'⟩ <;>
        refine strLe_cons_iff.mpr ?_
    · exact .inl (by omega)
    · exact .inl (by omega)
    · exact .inl (by omega)
    · exact .inr ⟨by omega, strLe_trans hab' hbc'⟩

theorem strLe_antisymm : ∀ {as bs}, strLe as bs = true → strLe bs as = true → as = bs
  | [], [], _, _ => rfl
  | [], _ :: _, _, hba => by simp [strLe] at hba
  | _ :: _, [], hab, _ => by simp [strLe] at hab
  | a :: as, b :: bs, hab, hba => by
    rcases strLe_cons_iff.mp hab with h | ⟨h, hab'⟩ <;>
      rcases strLe_cons_iff.mp hba with h' | ⟨h', hba'⟩
    · omega
    · omega
    · omega
    · have hc : a = b := Char.eq_of_val_eq (UInt32.ext h)
      simp [hc, strLe_antisymm hab' hba']

theorem keyLe_total (a b : Int × String) : keyLe a b ∨ keyLe b a := by
  rcases lt_trichotomy a.1 b.1 with h | h | h
  · exact .inl (.inl h)
  · rcases strLe_total a.2.data b.2.data with h' | h'
    · exact .inl (.inr ⟨h, h'⟩)
    · exact .inr (.inr ⟨h.symm, h'⟩)
  · exact .inr (.inl h)

theorem keyLe_trans {a b c : Int × String} (hab : keyLe a b) (hbc : keyLe b c) :
    keyLe a c := by
  rcases hab with h | ⟨h, h'⟩ <;> rcases hbc with g | ⟨g, g'⟩
  · exact .inl (h.trans g)
  · exact .inl (g ▸ h)
  · exact .inl (h ▸ g)
  · exact .inr ⟨h.trans g, strLe_trans h' g'⟩

theorem string_data_inj {s t : String} (h : s.data = t.data) : s = t := by
  cases s; cases t; exact congrArg String.mk h

theorem keyLe_antisymm {a b : Int × String} (hab : keyLe a b) (hba : keyLe b a) :
    a = b := by
  rcases hab with h | ⟨h, h'⟩ <;> rcases hba with g | ⟨g, g'⟩
  · exact absurd h (lt_asymm g)
  · exact absurd h (g ▸ lt_irrefl _)
  · exact absurd g (h ▸ lt_irrefl _)
  · exact Prod.ext h (string_data_inj (strLe_antisymm h' g'))

instance : IsTotal Paper paperGe :=
  ⟨fun a b => keyLe_total (sortKey b) (sortKey a)⟩

instance : IsTrans Paper paperGe :=
  ⟨fun _ _ _ hab hbc => keyLe_trans hbc hab⟩

/-- Mutually `paperGe`-comparable papers have equal sort keys. -/
theorem sortKey_eq_of_paperGe {a b : Paper} (hab : paperGe a b) (hba : paperGe b a) :
    sortKey a = sortKey b :=
  keyLe_antisymm hba hab

/-! ### Facts about the finalizer -/

theorem mem_of_mem_finalize {n : Nat} {l : List Paper} {p : Paper}
    (h : p ∈ finalize n l) : p ∈ l :=
  (List.perm_insertionSort paperGe l).mem_iff.mp (List.take_subset _ _ h)

theorem length_finalize_le (n : Nat) (l : List Paper) :
    (finalize n l).length ≤ n := by
  simp [finalize, List.length_take_le]

theorem sorted_finalize (n : Nat) (l : List Paper) :
    List.Sorted paperGe (finalize n l) :=
  (List.sorted_insertionSort paperGe l).sublist (List.take_sublist n _)

/-- Two lists that are permutations of one another, are both sorted by a
relation total and transitive on them, and on whose members the relation is
antisymmetric, are equal. -/
theorem sorted_perm_antisymm_eq {α : Type} {r : α → α → Prop} :
    ∀ {l₁ l₂ : List α}, l₁.Perm l₂ → l₁.Pairwise r → l₂.Pairwise r →
      (∀ a b, a ∈ l₁ → b ∈ l₁ → r a b → r b a → a = b) → l₁ = l₂
  | [], l₂, hp, _, _, _ => hp.nil_eq
  | a :: l₁, [], hp, _, _, _ => by simp at hp
  | a :: l₁, b :: l₂, hp, hs₁, hs₂, hanti => by
    obtain ⟨ha1, ha2⟩ := List.pairwise_cons.mp hs₁
    obtain ⟨hb1, hb2⟩ := List.pairwise_cons.mp hs₂
    have hbmem : b ∈ a :: l₁ := hp.symm.subset (List.mem_cons_self b l₂)
    have hab : a = b := by
      rcases List.mem_cons.mp hbmem with h | hbl₁
      · exact h.symm
      · have hamem : a ∈ b :: l₂ := hp.subset (List.mem_cons_self a l₁)
        rcases List.mem_cons.mp hamem with h | hal₂
        · exact h
        · exact hanti a b (List.mem_cons_self a l₁) hbmem (ha1 b hbl₁) (hb1 a hal₂)
    subst hab
    have hp' := hp.cons_inv
    have : l₁ = l₂ :=
      sorted_perm_antisymm_eq hp' ha2 hb2 fun x y hx hy =>
        hanti x y (List.mem_cons_of_mem a hx) (List.mem_cons_of_mem a hy)
    rw [this]

/-! ### Invariants of the collection loop -/

/-- Every terminated run returns exactly the sorted-and-truncated accumulator:
all four stop conditions (target reached, empty page, short page,
circuit-breaker trip) finalize the accumulator the same way. -/
theorem collectAux_result_eq (cfg : Config) :
    ∀ (fetches : List (Nat → AttemptOutcome)) (acc : List Paper)
      (off consec : Nat) (out : RunOut),
      collectAux cfg fetches acc off consec = some out →
      out.result = finalize cfg.total_limit out.finalAcc := by
  intro fetches
  induction fetches with
  | nil =>
    intro acc off consec out h
    simp only [collectAux] at h
    split at h
    · cases h; rfl
    · cases h
  | cons f rest ih =>
    intro acc off consec out h
    simp only [collectAux] at h
    split at h
    · cases h; rfl
    · split at h
      · -- retry loop succeeded
        split at h
        · cases h; rfl
        · split at h
          · cases h; rfl
          · obtain ⟨o, ho, rfl⟩ := Option.map_eq_some'.mp h
            exact ih _ _ _ o ho
      · -- retry budget exhausted
        split at h
        · cases h; rfl
        · obtain ⟨o, ho, rfl⟩ := Option.map_eq_some'.mp h
          exact ih _ _ _ o ho

/-- Records only enter the accumulator through the citation filter. -/
theorem collectAux_finalAcc_filter (cfg : Config) :
    ∀ (fetches : List (Nat → AttemptOutcome)) (acc : List Paper)
      (off consec : Nat) (out : RunOut),
      collectAux cfg fetches acc off consec = some out →
      (∀ p ∈ acc, citationFilter cfg.min_citations p = true) →
      ∀ p ∈ out.finalAcc, citationFilter cfg.min_citations p = true := by
  intro fetches
  induction fetches with
  | nil =>
    intro acc off consec out h hacc
    simp only [collectAux] at h
    split at h
    · cases h; exact hacc
    · cases h
  | cons f rest ih =>
    intro acc off consec out h hacc
    have happ : ∀ papers : List Paper,
        ∀ p ∈ acc ++ papers.filter (citationFilter cfg.min_citations),
          citationFilter cfg.min_citations p = true := by
      intro papers p hp
      rcases List.mem_append.mp hp with hp | hp
      · exact hacc p hp
      · exact (List.mem_filter.mp hp).2
    simp only [collectAux] at h
    split at h
    · cases h; exact hacc
    · split at h
      · split at h
        · cases h; exact hacc
        · split at h
          · cases h; exact happ _
          · obtain ⟨o, ho, rfl⟩ := Option.map_eq_some'.mp h
            exact ih _ _ _ o ho (happ _)
      · split at h
        · cases h; exact hacc
        · obtain ⟨o, ho, rfl⟩ := Option.map_eq_some'.mp h
          exact ih _ _ _ o ho hacc

/-- The whole loop reads `year_from` only through `yearParam`, and
`yearParam (some 0) = yearParam none`, so a run with `year_from = 0` is
step-for-step the run with `year_from` unset. -/
theorem collectAux_year_from_zero (q : String) (m : Int) (l : Nat) :
    ∀ (fetches : List (Nat → AttemptOutcome)) (acc : List Paper) (off consec : Nat),
      collectAux ⟨q, m, l, some 0⟩ fetches acc off consec =
        collectAux ⟨q, m, l, none⟩ fetches acc off consec := by
  intro fetches
  induction fetches with
  | nil => intro acc off consec; rfl
  | cons f rest ih =>
    intro acc off consec
    simp only [collectAux, mkRequest, yearParam, if_pos rfl, if_true]
    split
    · rfl
    · split
      · split
        · rfl
        · split
          · rfl
          · rw [ih]
      · split
        · rfl
        · rw [ih]

/-! ### Concrete sample data for witnesses and counterexamples -/

def pHigh : Paper := ⟨some "h1", "High", some 2021, some "2021-05-01", some 250⟩

def pLow : Paper := ⟨some "l1", "Low", some 2022, some "2022-01-10", some 3⟩

def pTieA : Paper := ⟨some "ta", "Tie A", some 2020, some "2020-01-01", some 200⟩

def pTieB : Paper := ⟨some "tb", "Tie B", some 2020, some "2020-01-01", some 200⟩

def pNoCite : Paper := ⟨some "nc", "No citation field", some 2020, none, none⟩

/-- The entry-point configuration of the script (lines 337-342). -/
def cfgMain : Config := ⟨"machine learning", 100, 50, some 2020⟩

def cfgSmall : Config := ⟨"q", 100, 10, none⟩

def cfgZero : Config := ⟨"q", 0, 10, none⟩

/-- A full-size page none of whose records survives a citation floor of 100. -/
def page100 : List Paper := List.replicate 100 pLow

/-! ### The claims -/

/-- C2: every record in the list returned by `search_papers_for_rag`
satisfies `citationCount >= min_citations` (an absent count reads as 0),
for every query, `min_citations`, `total_limit`, `year_from` and every
sequence of pages returned by the upstream API. -/
theorem result_citation_floor (cfg : Config) (fetches : List (Nat → AttemptOutcome))
    (out : RunOut) (h : searchTrace cfg fetches = some out) :
    ∀ p ∈ out.result, cfg.min_citations ≤ citationOf p := by
  intro p hp
  have h1 := collectAux_result_eq cfg fetches [] 0 0 out h
  have h2 := collectAux_finalAcc_filter cfg fetches [] 0 0 out h (by simp)
  have hmem : p ∈ out.finalAcc := mem_of_mem_finalize (h1 ▸ hp)
  simpa [citationFilter] using h2 p hmem

theorem result_citation_floor_witness :
    searchTrace cfgSmall [fun _ => AttemptOutcome.ok [pHigh, pLow]] =
      some ⟨[pHigh], [mkRequest cfgSmall 0], [pHigh]⟩ ∧
    ∀ p ∈ (⟨[pHigh], [mkRequest cfgSmall 0], [pHigh]⟩ : RunOut).result,
      cfgSmall.min_citations ≤ citationOf p :=
  ⟨by decide,
    result_citation_floor cfgSmall [fun _ => AttemptOutcome.ok [pHigh, pLow]]
      ⟨[pHigh], [mkRequest cfgSmall 0], [pHigh]⟩ (by decide)⟩

/-- C3: on every termination path (empty page, short page, breaker trip,
target reached) the returned value is the accumulator sorted descending by
`(year or 0, publicationDate or '')` and truncated to `total_limit`; in
particular it is sorted and never longer than `total_limit`. -/
theorem result_sorted_truncated (cfg : Config) (fetches : List (Nat → AttemptOutcome))
    (out : RunOut) (h : searchTrace cfg fetches = some out) :
    out.result = finalize cfg.total_limit out.finalAcc ∧
    List.Sorted paperGe out.result ∧
    out.result.length ≤ cfg.total_limit := by
  have h1 := collectAux_result_eq cfg fetches [] 0 0 out h
  refine ⟨h1, ?_, ?_⟩
  · rw [h1]; exact sorted_finalize _ _
  · rw [h1]; exact length_finalize_le _ _

def outSortedW : RunOut := ⟨[pLow, pHigh], [mkRequest cfgZero 0], [pHigh, pLow]⟩

theorem result_sorted_truncated_witness :
    searchTrace cfgZero [fun _ => AttemptOutcome.ok [pHigh, pLow]] = some outSortedW ∧
    (outSortedW.result = finalize cfgZero.total_limit outSortedW.finalAcc ∧
     List.Sorted paperGe outSortedW.result ∧
     outSortedW.result.length ≤ cfgZero.total_limit) :=
  ⟨by decide,
    result_sorted_truncated cfgZero [fun _ => AttemptOutcome.ok [pHigh, pLow]]
      outSortedW (by decide)⟩

/-- C6: if the first upstream call succeeds with an empty record list, the
function returns an empty list (successful termination, no error). -/
theorem empty_first_page_returns_empty (cfg : Config) (f : Nat → AttemptOutcome)
    (rest : List (Nat → AttemptOutcome)) (hs : (runRetry f).result = .success []) :
    search_papers_for_rag cfg (f :: rest) = some [] := by
  unfold search_papers_for_rag searchTrace
  simp only [collectAux, hs]
  split <;> simp [finalize]

theorem empty_first_page_returns_empty_witness :
    (runRetry (fun _ => AttemptOutcome.ok [])).result = .success [] ∧
    search_papers_for_rag cfgMain [fun _ => AttemptOutcome.ok []] = some [] :=
  ⟨by decide, empty_first_page_returns_empty cfgMain _ [] (by decide)⟩

/-- C9: a record whose `citationCount` field is absent is treated as having
count 0 by the citation filter: it is kept iff `min_citations ≤ 0`, hence
silently excluded for every positive `min_citations`. -/
theorem missing_citationCount_defaults_zero (min_citations : Int) (p : Paper)
    (h : p.citationCount = none) :
    (citationFilter min_citations p = true ↔ min_citations ≤ 0) := by
  simp [citationFilter, citationOf, h]

theorem missing_citationCount_defaults_zero_witness :
    pNoCite.citationCount = none ∧
    (citationFilter 100 pNoCite = true ↔ (100 : Int) ≤ 0) :=
  ⟨rfl, missing_citationCount_defaults_zero 100 pNoCite rfl⟩

/-- C10: the year lower bound is applied only when `year_from` is truthy:
with `year_from = 0` the run is identical (results and requests) to a run
with `year_from` unset, `yearParam` sends nothing for `0`, and sends
`"{y}-"` for every nonzero `y`. -/
theorem year_from_zero_like_none (q : String) (m : Int) (l : Nat)
    (fetches : List (Nat → AttemptOutcome)) :
    searchTrace ⟨q, m, l, some 0⟩ fetches = searchTrace ⟨q, m, l, none⟩ fetches ∧
    yearParam (some 0) = none ∧
    ∀ y : Int, y ≠ 0 → yearParam (some y) = some (toString y ++ "-") := by
  refine ⟨collectAux_year_from_zero q m l fetches [] 0 0, rfl, ?_⟩
  intro y hy
  simp [yearParam, hy]

theorem year_from_zero_like_none_witness :
    ((2020 : Int) ≠ 0) ∧ yearParam (some 2020) = some (toString (2020 : Int) ++ "-") :=
  ⟨by decide, (year_from_zero_like_none "q" 0 0 []).2.2 2020 (by decide)⟩

/-- C1 (code-bug evidence): with pages whose final retry attempt raises a
generic `RequestException`, `consecutive_failures` is incremented twice per
failed page (lines 132 and 136), so the run issues only 2 of the 3 available
page fetches before the `max_consecutive_failures = 3` breaker trips and it
returns the (empty) accumulation — the loop stops after only 2 consecutive
page failures.  By contrast, after 2 consecutive timeout-mode page failures
the loop is still running (the model returns `none`: it wants more pages). -/
theorem circuit_breaker_double_increment :
    searchTrace cfgMain
        [fun _ => AttemptOutcome.reqError, fun _ => AttemptOutcome.reqError,
         fun _ => AttemptOutcome.reqError] =
      some ⟨[], [mkRequest cfgMain 0, mkRequest cfgMain 0], []⟩ ∧
    searchTrace cfgMain
        [fun _ => AttemptOutcome.timeout, fun _ => AttemptOutcome.timeout] = none :=
  ⟨by decide, by decide⟩

/-- C4 (counterexample): two runs receiving the same multiset of records,
ordered differently within the page, return different sequences — the two
records tie on the sort key and the stable sort keeps fetch order. -/
theorem page_reorder_changes_output :
    List.Perm [pTieA, pTieB] [pTieB, pTieA] ∧
    search_papers_for_rag cfgSmall [fun _ => AttemptOutcome.ok [pTieA, pTieB]] =
      some [pTieA, pTieB] ∧
    search_papers_for_rag cfgSmall [fun _ => AttemptOutcome.ok [pTieB, pTieA]] =
      some [pTieB, pTieA] ∧
    [pTieA, pTieB] ≠ [pTieB, pTieA] :=
  ⟨by decide, by decide, by decide, by decide⟩

/-- C4 (amended): two runs whose accumulated records are the same multiset
return the identical sequence provided no two distinct accumulated records
share a sort key; with ties among distinct records the outputs may differ
(stable sort preserves fetch order among ties). -/
theorem result_eq_of_perm_of_injective_keys (cfg₁ cfg₂ : Config)
    (f₁ f₂ : List (Nat → AttemptOutcome)) (out₁ out₂ : RunOut)
    (hlim : cfg₁.total_limit = cfg₂.total_limit)
    (h₁ : searchTrace cfg₁ f₁ = some out₁)
    (h₂ : searchTrace cfg₂ f₂ = some out₂)
    (hperm : out₁.finalAcc.Perm out₂.finalAcc)
    (hinj : ∀ p ∈ out₁.finalAcc, ∀ q ∈ out₁.finalAcc, sortKey p = sortKey q → p = q) :
    out₁.result = out₂.result := by
  rw [collectAux_result_eq _ _ _ _ _ _ h₁, collectAux_result_eq _ _ _ _ _ _ h₂, ← hlim]
  unfold finalize
  congr 1
  apply sorted_perm_antisymm_eq (r := paperGe)
  · exact (List.perm_insertionSort paperGe _).trans
      (hperm.trans (List.perm_insertionSort paperGe _).symm)
  · exact List.sorted_insertionSort paperGe _
  · exact List.sorted_insertionSort paperGe _
  · intro a b ha hb hab hba
    exact hinj a ((List.perm_insertionSort paperGe _).mem_iff.mp ha)
      b ((List.perm_insertionSort paperGe _).mem_iff.mp hb)
      (sortKey_eq_of_paperGe hab hba)

def outPermA : RunOut := ⟨[pLow, pHigh], [mkRequest cfgZero 0], [pHigh, pLow]⟩

def outPermB : RunOut := ⟨[pLow, pHigh], [mkRequest cfgZero 0], [pLow, pHigh]⟩

theorem result_eq_of_perm_of_injective_keys_witness :
    cfgZero.total_limit = cfgZero.total_limit ∧
    searchTrace cfgZero [fun _ => AttemptOutcome.ok [pHigh, pLow]] = some outPermA ∧
    searchTrace cfgZero [fun _ => AttemptOutcome.ok [pLow, pHigh]] = some outPermB ∧
    outPermA.finalAcc.Perm outPermB.finalAcc ∧
    (∀ p ∈ outPermA.finalAcc, ∀ q ∈ outPermA.finalAcc, sortKey p = sortKey q → p = q) ∧
    outPermA.result = outPermB.result :=
  ⟨rfl, by decide, by decide, by decide, by decide,
    result_eq_of_perm_of_injective_keys cfgZero cfgZero
      [fun _ => AttemptOutcome.ok [pHigh, pLow]] [fun _ => AttemptOutcome.ok [pLow, pHigh]]
      outPermA outPermB rfl (by decide) (by decide) (by decide) (by decide)⟩

/-- C5: a successfully fetched page of exactly the requested size
(`batch_size = 100`) advances the offset by the page size and continues the
loop, no matter how many records survive the citation filter — in particular
a page with zero survivors never terminates the loop by itself. -/
theorem full_page_advances_offset (cfg : Config) (f : Nat → AttemptOutcome)
    (rest : List (Nat → AttemptOutcome)) (acc : List Paper) (off consec : Nat)
    (papers : List Paper)
    (hs : (runRetry f).result = .success papers)
    (hlen : papers.length = batch_size)
    (hacc : acc.length < cfg.total_limit) :
    collectAux cfg (f :: rest) acc off consec =
      (collectAux cfg rest (acc ++ papers.filter (citationFilter cfg.min_citations))
          (off + batch_size) 0).map
        (fun o => ⟨o.result, mkRequest cfg off :: o.requests, o.finalAcc⟩) := by
  have hne : papers ≠ [] := by
    intro he; rw [he] at hlen; simp [batch_size] at hlen
  simp only [collectAux, hs]
  rw [if_neg (by omega), if_neg hne, if_neg (by omega)]

theorem full_page_advances_offset_witness :
    (runRetry (fun _ => AttemptOutcome.ok page100)).result = .success page100 ∧
    page100.length = batch_size ∧
    ([] : List Paper).length < cfgSmall.total_limit ∧
    collectAux cfgSmall [fun _ => AttemptOutcome.ok page100] [] 0 0 =
      (collectAux cfgSmall []
          ([] ++ page100.filter (citationFilter cfgSmall.min_citations))
          (0 + batch_size) 0).map
        (fun o => ⟨o.result, mkRequest cfgSmall 0 :: o.requests, o.finalAcc⟩) :=
  ⟨by decide, by decide, by decide,
    full_page_advances_offset cfgSmall (fun _ => AttemptOutcome.ok page100) [] [] 0 0
      page100 (by decide) (by decide) (by decide)⟩

/-- C7: a successfully fetched page with fewer raw records than the requested
page size stops the run immediately: the run terminates and the short page's
request is the only one it issues — no further page is ever requested. -/
theorem short_page_stops (cfg : Config) (f : Nat → AttemptOutcome)
    (rest : List (Nat → AttemptOutcome)) (acc : List Paper) (off consec : Nat)
    (papers : List Paper)
    (hs : (runRetry f).result = .success papers)
    (hshort : papers.length < batch_size)
    (hacc : acc.length < cfg.total_limit) :
    ∃ out, collectAux cfg (f :: rest) acc off consec = some out ∧
      out.requests = [mkRequest cfg off] := by
  simp only [collectAux, hs]
  rw [if_neg (by omega)]
  by_cases he : papers = []
  · rw [if_pos he]; exact ⟨_, rfl, rfl⟩
  · rw [if_neg he, if_pos hshort]; exact ⟨_, rfl, rfl⟩

theorem short_page_stops_witness :
    (runRetry (fun _ => AttemptOutcome.ok [pHigh])).result = .success [pHigh] ∧
    ([pHigh] : List Paper).length < batch_size ∧
    ([] : List Paper).length < cfgSmall.total_limit ∧
    ∃ out, collectAux cfgSmall [fun _ => AttemptOutcome.ok [pHigh]] [] 0 0 = some out ∧
      out.requests = [mkRequest cfgSmall 0] :=
  ⟨by decide, by decide, by decide,
    short_page_stops cfgSmall (fun _ => AttemptOutcome.ok [pHigh]) [] [] 0 0
      [pHigh] (by decide) (by decide) (by decide)⟩

/-- C8: the per-page retry loop makes at most 3 attempts with base delay 5s;
its wait schedule is exactly the spec's: `5 * 2^attempt` after a 429 and
`5 * (attempt+1)` after a timeout or (on a non-final attempt) a generic
transport error; a generic transport error on a non-final attempt is
retried, and it surfaces as the page failure only from the final attempt. -/
theorem retry_backoff_schedule (oracle : Nat → AttemptOutcome) :
    (runRetry oracle).attemptsUsed ≤ 3 ∧
    (runRetry oracle).waits =
      (List.range (runRetry oracle).attemptsUsed).filterMap
        (fun a => specBackoff (oracle a) a) ∧
    (oracle 0 = .reqError → 2 ≤ (runRetry oracle).attemptsUsed) ∧
    (oracle 1 = .reqError → 1 < (runRetry oracle).attemptsUsed →
      (runRetry oracle).attemptsUsed = 3) ∧
    ((runRetry oracle).result = .failure 2 →
      oracle 2 = .reqError ∧ (runRetry oracle).attemptsUsed = 3) := by
  rcases h0 : oracle 0 with _ | _ | _ | p0 <;>
    rcases h1 : oracle 1 with _ | _ | _ | p1 <;>
      rcases h2 : oracle 2 with _ | _ | _ | p2 <;>
        simp [runRetry, retryGo, h0, h1, h2, specBackoff, retry_delay,
          List.range_succ, List.filterMap_append]

theorem retry_backoff_schedule_witness :
    (2 ≤ (runRetry (fun _ => AttemptOutcome.reqError)).attemptsUsed) ∧
    ((fun _ => AttemptOutcome.reqError) 2 = AttemptOutcome.reqError ∧
      (runRetry (fun _ => AttemptOutcome.reqError)).attemptsUsed = 3) :=
  ⟨(retry_backoff_schedule (fun _ => AttemptOutcome.reqError)).2.2.1 rfl,
    (retry_backoff_schedule (fun _ => AttemptOutcome.reqError)).2.2.2.2 (by decide)⟩
